import Mathlib

/-!
Verification development for the xDSnap diagnostic capture engine.

The definitions below are a shallow embedding of the Go sources:

* `fetchEnvoyEndpoint` embeds the retry loop of `fetchEnvoyEndpoint`
  (`pkg/cmd/snap.go`, the current version of the snapshot module);
* `CaptureSnapshot` embeds the per-cycle orchestration of that file;
* `NewCaptureRun` embeds the repeat/interval outer loop of the capture
  command (`pkg/cmd/capture.go`);
* `createTarGz`/`walkEntry` embed the archive builder;
* the `JState` transition system embeds the fan-out/fan-in join done with
  the `logResults` channel;
* the completion-time functions embed the deadline structure of
  `kube/kubernetes_api_service.go`.

Remote effects (Kubernetes API calls) are modelled by explicit
environments of oracles: each remote operation reads its outcome from the
environment, and the embedding records the externally visible events
(ephemeral-container creations, pod deletions, file writes, archiving) in
a trace.
-/

/-! ## Endpoint fetcher (`fetchEnvoyEndpoint`, snap.go lines 227-245)

The Go code runs `wget -qO- http://localhost:19000<endpoint>` through
`ExecuteCommand` up to `maxRetries = 5` times, sleeping
`retryDelay = 3s` after every attempt that errors or yields an empty
payload, and returns an error once the retries are exhausted.  An
attempt is modelled by an oracle `att : Nat → Option (List Nat)`:
`none` is a transport error of `ExecuteCommand`, `some bytes` the bytes
the command wrote to stdout.  The embedding additionally reports the
number of attempts made and the seconds slept, which instrument the
loop without changing it. -/

def maxRetries : Nat := 5

def retryDelay : Nat := 3

/-- Retry loop of `fetchEnvoyEndpoint`, starting at 0-based attempt `i`
with `n` attempts remaining.  Returns the payload (if any attempt
returned a non-empty one; the loop stops at the first such attempt),
the number of attempts made and the seconds slept. -/
def fetchFrom (att : Nat → Option (List Nat)) : Nat → Nat → Option (List Nat) × Nat × Nat
  | _, 0 => (none, 0, 0)
  | i, n + 1 =>
    match att i with
    | some b =>
      if 0 < b.length then (some b, 1, 0)
      else
        let r := fetchFrom att (i + 1) n
        (r.1, r.2.1 + 1, r.2.2 + retryDelay)
    | none =>
      let r := fetchFrom att (i + 1) n
      (r.1, r.2.1 + 1, r.2.2 + retryDelay)

/-- Embedding of `fetchEnvoyEndpoint`: up to `maxRetries` attempts via the
exec oracle; no further tier follows the loop — exhaustion is an error. -/
def fetchEnvoyEndpoint (endpoint : String) (att : Nat → Option (List Nat)) :
    Except String (List Nat) × Nat × Nat :=
  match fetchFrom att 0 maxRetries with
  | (some b, a, s) => (Except.ok b, a, s)
  | (none, a, s) =>
    (Except.error ("failed to fetch data from endpoint " ++ endpoint ++ " after 5 retries"),
      a, s)

/-- Boolean success test for `Except`, used to state results about the
fetcher without naming a payload. -/
def exceptIsOk : Except String (List Nat) → Bool
  | Except.ok _ => true
  | Except.error _ => false

/-- Stub gateway of the claim: every exec attempt returns an empty payload. -/
def emptyStub : Nat → Option (List Nat) := fun _ => some []

theorem fetchFrom_all_bad (att : Nat → Option (List Nat)) :
    ∀ n i, (∀ j, i ≤ j → j < i + n → att j = none ∨ att j = some []) →
      fetchFrom att i n = (none, n, n * retryDelay) := by
  intro n
  induction n with
  | zero => intro i _; rfl
  | succ n ih =>
    intro i h
    have hi : att i = none ∨ att i = some [] := h i (le_refl i) (by omega)
    have hrec : fetchFrom att (i + 1) n = (none, n, n * retryDelay) := by
      apply ih
      intro j hj1 hj2
      exact h j (by omega) (by omega)
    rcases hi with hi | hi
    · simp [fetchFrom, hi, hrec, Nat.succ_mul]
    · simp [fetchFrom, hi, hrec, Nat.succ_mul]

theorem fetchFrom_attempts_le (att : Nat → Option (List Nat)) :
    ∀ n i, (fetchFrom att i n).2.1 ≤ n := by
  intro n
  induction n with
  | zero => intro i; simp [fetchFrom]
  | succ n ih =>
    intro i
    simp only [fetchFrom]
    cases att i with
    | none => have := ih (i + 1); simp; omega
    | some b =>
      by_cases hb : 0 < b.length
      · simp [hb]
      · have := ih (i + 1); simp [hb]; omega

/-- C1 (amended): for every endpoint fetch, the fetcher makes up to 5
attempts, all through the exec tier (an in-container `wget` run via
`ExecuteCommand`), with a fixed 3-second inter-attempt delay; there is no
fallback tier: when all 5 attempts fail or return an empty payload the
fetcher returns an error with a total attempt count of 5 after 15 seconds
of inter-attempt delays. -/
theorem fetch_exec_five_attempts_no_fallback (endpoint : String)
    (att : Nat → Option (List Nat)) :
    ((∀ j, j < maxRetries → att j = none ∨ att j = some []) →
      fetchEnvoyEndpoint endpoint att =
        (Except.error ("failed to fetch data from endpoint " ++ endpoint ++ " after 5 retries"),
          maxRetries, maxRetries * retryDelay)) ∧
    (fetchEnvoyEndpoint endpoint att).2.1 ≤ maxRetries := by
  constructor
  · intro h
    have hall : fetchFrom att 0 maxRetries = (none, maxRetries, maxRetries * retryDelay) := by
      apply fetchFrom_all_bad
      intro j hj1 hj2
      exact h j (by omega)
    simp [fetchEnvoyEndpoint, hall]
  · have := fetchFrom_attempts_le att maxRetries 0
    unfold fetchEnvoyEndpoint
    rcases hfp : fetchFrom att 0 maxRetries with ⟨r, a, s⟩
    cases r <;> simp_all

/-- C1 (counterexample): with the stub gateway of the claim — every tunnel
tier attempt returns an empty payload, so a fallback attempt, if one
existed, would be reached — the fetcher returns an error with a total
attempt count of 5, not the fallback payload with a count of 6: the code
has no fallback tier. -/
theorem fetch_no_fallback_counterexample :
    fetchEnvoyEndpoint "/stats" emptyStub =
      (Except.error "failed to fetch data from endpoint /stats after 5 retries", 5, 15) ∧
    exceptIsOk (fetchEnvoyEndpoint "/stats" emptyStub).1 = false ∧
    (fetchEnvoyEndpoint "/stats" emptyStub).2.1 ≠ 6 := by
  refine ⟨rfl, rfl, by decide⟩

/-- C1 (witness): the amended theorem applied to the stub gateway. -/
theorem fetch_exec_five_attempts_no_fallback_witness :
    fetchEnvoyEndpoint "/config_dump" emptyStub =
      (Except.error "failed to fetch data from endpoint /config_dump after 5 retries", 5, 15) ∧
    (fetchEnvoyEndpoint "/config_dump" emptyStub).2.1 ≤ 5 :=
  ⟨(fetch_exec_five_attempts_no_fallback "/config_dump" emptyStub).1
      (fun _ _ => Or.inr rfl),
    (fetch_exec_five_attempts_no_fallback "/config_dump" emptyStub).2⟩

/-! ## Ephemeral-container lifecycle (`kube/kubernetes_api_service.go`)

`RunEphemeralInTargetNetNS` (lines 286-369) validates its arguments,
fetches the target pod, appends an ephemeral container through
`UpdateEphemeralContainers` (the point at which the remote resource
exists) and then polls until the container state is `Terminated`, or the
caller-supplied deadline passes, in which case it returns an error — it
issues no delete call itself on any path.  Each remote step reads its
outcome from an `EphRunEnv` oracle. -/

structure EphRunEnv where
  /-- The initial `Get` of the target pod succeeds. -/
  getOk : Bool
  /-- `UpdateEphemeralContainers` succeeds: the ephemeral container now exists. -/
  updateOk : Bool
  /-- The ephemeral container reaches `Terminated` before the deadline. -/
  reachesTerminated : Bool
deriving DecidableEq, Repr

/-- Externally visible events of a capture cycle.  `ephCreate tag` records
that `UpdateEphemeralContainers` succeeded for the task identified by
`tag`; `delete tag name` records a `DeletePod name` call issued on behalf
of that task. -/
inductive Ev where
  | ephCreate (tag : String)
  | delete (tag : String) (name : String)
  | logWrite (container : String) (data : List Nat)
  | pcapWrite (name : String) (data : List Nat)
  | endpointWrite (name : String) (data : List Nat)
  | archive
  | resetAttempt
deriving DecidableEq, Repr

/-- Embedding of `RunEphemeralInTargetNetNS`.  Returns the error result of
the Go function together with the events it caused.  The deadline-exceeded
path (`updateOk` but not `reachesTerminated`) has created the container
and returns the `did not finish` error without any delete. -/
def RunEphemeralInTargetNetNS (targetPod targetContainer : String)
    (command : List String) (tag : String) (env : EphRunEnv) :
    Except String Unit × List Ev :=
  if targetPod = "" ∨ targetContainer = "" then
    (Except.error "targetPod and targetContainer are required", [])
  else if command = [] then
    (Except.error "command must not be empty", [])
  else if env.getOk = false then
    (Except.error "get pod", [])
  else if env.updateOk = false then
    (Except.error "update ephemeral containers", [])
  else if env.reachesTerminated then
    (Except.ok (), [Ev.ephCreate tag])
  else
    (Except.error "ephemeral container did not finish", [Ev.ephCreate tag])

/-- Embedding of `CreatePrivilegedDebugPod` (lines 566-575): runs
`RunEphemeralInTargetNetNS` with a 10s timeout and on success returns the
synthetic pod name `ephemeral-<targetPod>`. -/
def CreatePrivilegedDebugPod (targetPod containerName : String)
    (command : List String) (tag : String) (env : EphRunEnv) :
    Except String String × List Ev :=
  if command = [] then (Except.error "no command specified", [])
  else
    match RunEphemeralInTargetNetNS targetPod containerName command tag env with
    | (Except.error e, evs) => (Except.error e, evs)
    | (Except.ok _, evs) => (Except.ok ("ephemeral-" ++ targetPod), evs)

/-- Embedding of `StartEphemeralTcpdumpToLogs` (lines 486-564): same
create-then-poll structure, returning the ephemeral container name on
success. -/
def StartEphemeralTcpdumpToLogs (targetPod targetContainer : String)
    (env : EphRunEnv) : Except String String × List Ev :=
  if targetPod = "" ∨ targetContainer = "" then
    (Except.error "targetPod and targetContainer are required", [])
  else if env.getOk = false then
    (Except.error "get pod", [])
  else if env.updateOk = false then
    (Except.error "update ephemeral containers", [])
  else if env.reachesTerminated then
    (Except.ok "xdsnap-tcpdump-ec", [Ev.ephCreate "tcpdump"])
  else
    (Except.error "ephemeral container did not finish", [Ev.ephCreate "tcpdump"])

/-! ## Snapshot orchestration (`CaptureSnapshot`, snap.go lines 32-208) -/

structure SnapshotConfig where
  PodName : String
  ContainerName : String
  Endpoints : List String
  OutputDir : String
  ExtraLogs : List String
  Duration : Nat
  EnableTrace : Bool
  TcpdumpEnabled : Bool
  SkipLogLevelReset : Bool
deriving Repr

def DefaultEndpoints : List String :=
  ["/stats", "/config_dump", "/listeners", "/clusters", "/certs"]

/-- Oracle environment for one `CaptureSnapshot` call: the outcome of
each remote or filesystem operation the cycle performs. -/
structure SnapEnv where
  /-- `os.MkdirTemp` succeeds. -/
  mkdirTempOk : Bool
  /-- Result of `streamLogsWithTimeout` for a container: `none` is a
  stream error, `some bytes` the collected log bytes. -/
  logStream : String → Option (List Nat)
  /-- The `os.WriteFile` of a log file succeeds. -/
  logWriteOk : String → Bool
  /-- Lifecycle outcomes of the log-level debug task. -/
  debugEph : EphRunEnv
  /-- `WaitForPodRunning` for the debug pod succeeds (it has a 30s bound). -/
  debugWaitOk : Bool
  /-- The nsenter-curl `ExecuteCommand` in the debug pod succeeds. -/
  debugExecOk : Bool
  /-- Target container chosen by `CreateConcurrentTcpdumpCapturePod`
  (`none` when no suitable container exists and the provided list is empty). -/
  tcpdumpTarget : Option String
  /-- Lifecycle outcomes of the tcpdump task. -/
  tcpdumpEph : EphRunEnv
  /-- The tar-stream `ExecuteCommandWithStderr` fetch succeeds. -/
  tcpdumpFetchOk : Bool
  /-- Non-directory entries of the fetched tar stream (name, bytes). -/
  pcapFiles : List (String × List Nat)
  /-- Exec result of attempt `j` for the endpoint at index `i` of the
  effective endpoint list (argument order: endpoint index, attempt). -/
  fetchAttempt : Nat → Nat → Option (List Nat)
  /-- The `os.WriteFile` of the endpoint file at index `i` succeeds. -/
  endpointWriteOk : Nat → Bool
  /-- `createTarGz` succeeds. -/
  archiveOk : Bool
  /-- Lifecycle outcomes of the log-level reset task. -/
  resetEph : EphRunEnv
  /-- `WaitForPodRunning` for the reset pod succeeds. -/
  resetWaitOk : Bool
  /-- The nsenter-curl reset `ExecuteCommand` succeeds. -/
  resetExecOk : Bool

/-- Result of a `CaptureSnapshot` call: normal return values of the Go
function, plus `panic` for the runtime panic raised by `endpoint[1:]`
when a configured endpoint is the empty string. -/
inductive SnapResult where
  | ok
  | error (msg : String)
  | panic
deriving DecidableEq, Repr

/-- Effects of the per-container log workers (snap.go lines 45-65): one
worker per non-empty container name in `ContainerName :: ExtraLogs`; a
worker whose stream errors writes nothing, otherwise it writes
`<container>-logs.txt`.  The workers run concurrently with the phases
below and are joined before archiving; this sequential model serialises
their effects at spawn order (the interleaving-faithful join model is the
`JStep` transition system below). -/
def logPhase (cfg : SnapshotConfig) (env : SnapEnv) : List Ev :=
  ((cfg.ContainerName :: cfg.ExtraLogs).filter (fun c => c ≠ "")).filterMap (fun c =>
    match env.logStream c with
    | none => none
    | some bytes =>
      if env.logWriteOk c then some (Ev.logWrite c bytes) else none)

/-- Log-level raise phase (snap.go lines 67-95): create the debug task;
on creation error only log; otherwise wait, exec the curl (both
best-effort) and always issue exactly one `DeletePod` on this branch. -/
def debugPodPhase (cfg : SnapshotConfig) (env : SnapEnv) : List Ev :=
  match CreatePrivilegedDebugPod cfg.PodName cfg.ContainerName
      ["curl", "-s", "-X", "POST"] "debug" env.debugEph with
  | (Except.error _, evs) => evs
  | (Except.ok name, evs) => evs ++ [Ev.delete "debug" name]

/-- Embedding of `CreateConcurrentTcpdumpCapturePod` (lines 577-603). -/
def CreateConcurrentTcpdumpCapturePod (targetPod : String) (env : SnapEnv) :
    Except String String × List Ev :=
  match env.tcpdumpTarget with
  | none => (Except.error "no suitable containers found", [])
  | some c => StartEphemeralTcpdumpToLogs targetPod c env.tcpdumpEph

/-- Tcpdump phase (snap.go lines 97-148): launch the capture task; on
launch error only log; otherwise fetch the tar stream (writing one file
per non-directory entry when the fetch succeeds) and always issue exactly
one `DeletePod` on this branch. -/
def tcpdumpPhase (cfg : SnapshotConfig) (env : SnapEnv) : List Ev :=
  if cfg.TcpdumpEnabled = false then []
  else
    match CreateConcurrentTcpdumpCapturePod cfg.PodName env with
    | (Except.error _, evs) => evs
    | (Except.ok name, evs) =>
      let fetched := if env.tcpdumpFetchOk then
          env.pcapFiles.map (fun f => Ev.pcapWrite f.1 f.2)
        else []
      evs ++ fetched ++ [Ev.delete "tcpdump" name]

/-- Endpoint sweep (snap.go lines 150-166): fetch each endpoint in order;
a fetch error or an empty payload skips the endpoint; otherwise the file
name is derived from `endpoint[1:]`, which panics when the endpoint is
the empty string (the returned Bool records that panic, which aborts the
sweep).  A successful write appends `<endpoint[1:]>.json`. -/
def endpointLoop (env : SnapEnv) : List String → Nat → List Ev × Bool
  | [], _ => ([], false)
  | e :: rest, idx =>
    match (fetchEnvoyEndpoint e (env.fetchAttempt idx)).1 with
    | Except.error _ => endpointLoop env rest (idx + 1)
    | Except.ok data =>
      if data.length = 0 then endpointLoop env rest (idx + 1)
      else if e = "" then ([], true)
      else
        let here := if env.endpointWriteOk idx then
            [Ev.endpointWrite ((e.drop 1) ++ ".json") data]
          else []
        let r := endpointLoop env rest (idx + 1)
        (here ++ r.1, r.2)

/-- Log-level reset phase (snap.go lines 179-205): runs only when
`SkipLogLevelReset` is false; same create/wait/exec/delete structure as
the raise phase. -/
def resetPhase (cfg : SnapshotConfig) (env : SnapEnv) : List Ev :=
  if cfg.SkipLogLevelReset then []
  else
    Ev.resetAttempt ::
      (match CreatePrivilegedDebugPod cfg.PodName cfg.ContainerName
          ["curl", "-s", "-X", "POST"] "reset" env.resetEph with
      | (Except.error _, evs) => evs
      | (Except.ok name, evs) => evs ++ [Ev.delete "reset" name])

/-- Embedding of `CaptureSnapshot`: endpoint defaulting, temp-dir
creation, concurrent log collection, best-effort log-level raise,
optional tcpdump capture, sequential endpoint sweep, join, archive, and
the conditional log-level reset.  Only temp-dir creation and archiving
propagate an error; the endpoint panic aborts before archiving. -/
def effConfig (cfg0 : SnapshotConfig) : SnapshotConfig :=
  if cfg0.Endpoints = [] then { cfg0 with Endpoints := DefaultEndpoints } else cfg0

/-- Embedding of `CaptureSnapshot` (continued): the orchestration body. -/
def CaptureSnapshot (cfg0 : SnapshotConfig) (env : SnapEnv) :
    SnapResult × List Ev :=
  let cfg := effConfig cfg0
  if env.mkdirTempOk = false then
    (SnapResult.error "failed to create temporary directory", [])
  else
    let logEvs := logPhase cfg env
    let dEvs := debugPodPhase cfg env
    let tEvs := tcpdumpPhase cfg env
    let eRes := endpointLoop env cfg.Endpoints 0
    if eRes.2 then
      (SnapResult.panic, logEvs ++ dEvs ++ tEvs ++ eRes.1)
    else if env.archiveOk = false then
      (SnapResult.error "failed to create tar.gz file", logEvs ++ dEvs ++ tEvs ++ eRes.1)
    else
      (SnapResult.ok, logEvs ++ dEvs ++ tEvs ++ eRes.1 ++ [Ev.archive] ++ resetPhase cfg env)

/-! ### Shape lemmas for the phase traces -/

theorem RunEphemeralInTargetNetNS_events (p c : String) (cmd : List String)
    (tag : String) (env : EphRunEnv) :
    (RunEphemeralInTargetNetNS p c cmd tag env).2 = [] ∨
      (RunEphemeralInTargetNetNS p c cmd tag env).2 = [Ev.ephCreate tag] := by
  unfold RunEphemeralInTargetNetNS
  split
  · exact Or.inl rfl
  · split
    · exact Or.inl rfl
    · split
      · exact Or.inl rfl
      · split
        · exact Or.inl rfl
        · split
          · exact Or.inr rfl
          · exact Or.inr rfl

theorem debugPodPhase_mem (cfg : SnapshotConfig) (env : SnapEnv) (ev : Ev) :
    ev ∈ debugPodPhase cfg env →
      ev = Ev.ephCreate "debug" ∨ ev = Ev.delete "debug" ("ephemeral-" ++ cfg.PodName) := by
  unfold debugPodPhase CreatePrivilegedDebugPod
  intro h
  rcases RunEphemeralInTargetNetNS_events cfg.PodName cfg.ContainerName
      ["curl", "-s", "-X", "POST"] "debug" env.debugEph with he | he <;>
    rcases hr : RunEphemeralInTargetNetNS cfg.PodName cfg.ContainerName
      ["curl", "-s", "-X", "POST"] "debug" env.debugEph with ⟨res, evs⟩ <;>
    rw [hr] at he <;> subst he <;>
    cases res <;> simp_all

theorem StartEphemeralTcpdumpToLogs_shape (p c : String) (env : EphRunEnv) :
    StartEphemeralTcpdumpToLogs p c env =
        (Except.ok "xdsnap-tcpdump-ec", [Ev.ephCreate "tcpdump"]) ∨
      (∃ m, StartEphemeralTcpdumpToLogs p c env = (Except.error m, [])) ∨
      (∃ m, StartEphemeralTcpdumpToLogs p c env =
        (Except.error m, [Ev.ephCreate "tcpdump"])) := by
  unfold StartEphemeralTcpdumpToLogs
  split
  · exact Or.inr (Or.inl ⟨_, rfl⟩)
  · split
    · exact Or.inr (Or.inl ⟨_, rfl⟩)
    · split
      · exact Or.inr (Or.inl ⟨_, rfl⟩)
      · split
        · exact Or.inl rfl
        · exact Or.inr (Or.inr ⟨_, rfl⟩)

theorem tcpdumpPhase_mem (cfg : SnapshotConfig) (env : SnapEnv) (ev : Ev) :
    ev ∈ tcpdumpPhase cfg env →
      ev = Ev.ephCreate "tcpdump" ∨ ev = Ev.delete "tcpdump" "xdsnap-tcpdump-ec" ∨
        ∃ n d, ev = Ev.pcapWrite n d := by
  unfold tcpdumpPhase CreateConcurrentTcpdumpCapturePod
  intro h
  split at h
  · simp at h
  · rcases ht : env.tcpdumpTarget with _ | c <;> simp only [ht] at h
    · simp at h
    · rcases StartEphemeralTcpdumpToLogs_shape cfg.PodName c env.tcpdumpEph with
        hs | ⟨m, hs⟩ | ⟨m, hs⟩ <;> simp only [hs] at h
      · simp at h
        rcases h with h | ⟨-, a, b, -, h⟩ | h
        · exact Or.inl h
        · exact Or.inr (Or.inr ⟨a, b, h.symm⟩)
        · exact Or.inr (Or.inl h)
      · simp at h
      · simp at h
        exact Or.inl h

theorem resetPhase_mem (cfg : SnapshotConfig) (env : SnapEnv) (ev : Ev) :
    ev ∈ resetPhase cfg env →
      ev = Ev.resetAttempt ∨ ev = Ev.ephCreate "reset" ∨
        ev = Ev.delete "reset" ("ephemeral-" ++ cfg.PodName) := by
  unfold resetPhase CreatePrivilegedDebugPod
  intro h
  split at h
  · simp at h
  · simp at h
    rcases h with h | h
    · exact Or.inl h
    · rcases RunEphemeralInTargetNetNS_events cfg.PodName cfg.ContainerName
          ["curl", "-s", "-X", "POST"] "reset" env.resetEph with he | he <;>
        rcases hr : RunEphemeralInTargetNetNS cfg.PodName cfg.ContainerName
          ["curl", "-s", "-X", "POST"] "reset" env.resetEph with ⟨res, evs⟩ <;>
        rw [hr] at he <;> subst he <;> cases res <;> simp_all

theorem logPhase_mem (cfg : SnapshotConfig) (env : SnapEnv) (ev : Ev) :
    ev ∈ logPhase cfg env → ∃ c d, ev = Ev.logWrite c d := by
  unfold logPhase
  intro h
  rw [List.mem_filterMap] at h
  rcases h with ⟨c, _, hc⟩
  rcases hs : env.logStream c with _ | bytes <;> rw [hs] at hc
  · simp at hc
  · by_cases hw : env.logWriteOk c = true
    · simp [hw] at hc
      exact ⟨c, bytes, hc.symm⟩
    · simp [hw] at hc

theorem endpointLoop_mem (env : SnapEnv) :
    ∀ (l : List String) (idx : Nat) (ev : Ev), ev ∈ (endpointLoop env l idx).1 →
      ∃ n d, ev = Ev.endpointWrite n d ∧ d ≠ [] := by
  intro l
  induction l with
  | nil => intro idx ev h; simp [endpointLoop] at h
  | cons e rest ih =>
    intro idx ev h
    unfold endpointLoop at h
    rcases hf : (fetchEnvoyEndpoint e (env.fetchAttempt idx)).1 with m | data <;>
      rw [hf] at h
    · exact ih (idx + 1) ev h
    · by_cases hd : data.length = 0
      · simp only [hd, if_pos rfl] at h
        exact ih (idx + 1) ev h
      · simp only [if_neg hd] at h
        by_cases he : e = ""
        · simp [he] at h
        · simp only [if_neg he] at h
          by_cases hw : env.endpointWriteOk idx = true
          · simp [hw] at h
            rcases h with h | h
            · exact ⟨_, _, h, by simpa using hd⟩
            · exact ih (idx + 1) ev h
          · simp [hw] at h
            exact ih (idx + 1) ev h

/-- Number of successful ephemeral-container creations recorded for task `t`. -/
def createsTagged (t : String) (evs : List Ev) : Nat :=
  evs.countP (fun ev => match ev with | Ev.ephCreate tag => tag == t | _ => false)

/-- Number of `DeletePod` calls recorded on behalf of task `t`. -/
def deletesTagged (t : String) (evs : List Ev) : Nat :=
  evs.countP (fun ev => match ev with | Ev.delete tag _ => tag == t | _ => false)

theorem capture_events_decomp (cfg0 : SnapshotConfig) (env : SnapEnv)
    (hm : env.mkdirTempOk = true) :
    ∃ tail, (CaptureSnapshot cfg0 env).2 =
        logPhase (effConfig cfg0) env ++ (debugPodPhase (effConfig cfg0) env ++
          (tcpdumpPhase (effConfig cfg0) env ++ tail)) ∧
      ∀ ev ∈ tail, (∃ n d, ev = Ev.endpointWrite n d ∧ d ≠ []) ∨ ev = Ev.archive ∨
        ev ∈ resetPhase (effConfig cfg0) env := by
  unfold CaptureSnapshot
  rw [hm]
  simp only [Bool.true_eq_false, if_false]
  by_cases hp : (endpointLoop env (effConfig cfg0).Endpoints 0).2 = true
  · refine ⟨(endpointLoop env (effConfig cfg0).Endpoints 0).1, ?_, ?_⟩
    · simp [hp]
    · intro ev hev
      rcases endpointLoop_mem env _ 0 ev hev with ⟨n, d, hne, hd⟩
      exact Or.inl ⟨n, d, hne, hd⟩
  · by_cases ha : env.archiveOk = false
    · refine ⟨(endpointLoop env (effConfig cfg0).Endpoints 0).1, ?_, ?_⟩
      · simp [hp, ha]
      · intro ev hev
        rcases endpointLoop_mem env _ 0 ev hev with ⟨n, d, hne, hd⟩
        exact Or.inl ⟨n, d, hne, hd⟩
    · refine ⟨(endpointLoop env (effConfig cfg0).Endpoints 0).1 ++ [Ev.archive] ++
        resetPhase (effConfig cfg0) env, ?_, ?_⟩
      · simp [hp, ha]
      · intro ev hev
        simp only [List.append_assoc, List.mem_append, List.mem_singleton] at hev
        rcases hev with hev | hev | hev
        · rcases endpointLoop_mem env _ 0 ev hev with ⟨n, d, hne, hd⟩
          exact Or.inl ⟨n, d, hne, hd⟩
        · exact Or.inr (Or.inl hev)
        · exact Or.inr (Or.inr hev)

theorem debugPodPhase_success (cfg : SnapshotConfig) (env : SnapEnv)
    (hp : cfg.PodName ≠ "") (hc : cfg.ContainerName ≠ "")
    (h1 : env.debugEph.getOk = true) (h2 : env.debugEph.updateOk = true)
    (h3 : env.debugEph.reachesTerminated = true) :
    debugPodPhase cfg env =
      [Ev.ephCreate "debug", Ev.delete "debug" ("ephemeral-" ++ cfg.PodName)] := by
  unfold debugPodPhase CreatePrivilegedDebugPod RunEphemeralInTargetNetNS
  simp [hp, hc, h1, h2, h3]

theorem debugPodPhase_timeout (cfg : SnapshotConfig) (env : SnapEnv)
    (hp : cfg.PodName ≠ "") (hc : cfg.ContainerName ≠ "")
    (h1 : env.debugEph.getOk = true) (h2 : env.debugEph.updateOk = true)
    (h3 : env.debugEph.reachesTerminated = false) :
    debugPodPhase cfg env = [Ev.ephCreate "debug"] := by
  unfold debugPodPhase CreatePrivilegedDebugPod RunEphemeralInTargetNetNS
  simp [hp, hc, h1, h2, h3]

theorem capture_debug_counts (cfg : SnapshotConfig) (env : SnapEnv)
    (hm : env.mkdirTempOk = true) :
    createsTagged "debug" ((CaptureSnapshot cfg env).2) =
        createsTagged "debug" (debugPodPhase (effConfig cfg) env) ∧
      deletesTagged "debug" ((CaptureSnapshot cfg env).2) =
        deletesTagged "debug" (debugPodPhase (effConfig cfg) env) := by
  rcases capture_events_decomp cfg env hm with ⟨tail, hdec, htail⟩
  have hlogc : createsTagged "debug" (logPhase (effConfig cfg) env) = 0 := by
    apply List.countP_eq_zero.mpr
    intro ev hev
    rcases logPhase_mem _ _ _ hev with ⟨c, d, rfl⟩
    simp
  have hlogd : deletesTagged "debug" (logPhase (effConfig cfg) env) = 0 := by
    apply List.countP_eq_zero.mpr
    intro ev hev
    rcases logPhase_mem _ _ _ hev with ⟨c, d, rfl⟩
    simp
  have htcpc : createsTagged "debug" (tcpdumpPhase (effConfig cfg) env) = 0 := by
    apply List.countP_eq_zero.mpr
    intro ev hev
    rcases tcpdumpPhase_mem _ _ _ hev with rfl | rfl | ⟨n, d, rfl⟩ <;> simp
  have htcpd : deletesTagged "debug" (tcpdumpPhase (effConfig cfg) env) = 0 := by
    apply List.countP_eq_zero.mpr
    intro ev hev
    rcases tcpdumpPhase_mem _ _ _ hev with rfl | rfl | ⟨n, d, rfl⟩ <;> simp
  have htailc : createsTagged "debug" tail = 0 := by
    apply List.countP_eq_zero.mpr
    intro ev hev
    rcases htail ev hev with ⟨n, d, rfl, -⟩ | rfl | hres
    · simp
    · simp
    · rcases resetPhase_mem _ _ _ hres with rfl | rfl | rfl <;> simp
  have htaild : deletesTagged "debug" tail = 0 := by
    apply List.countP_eq_zero.mpr
    intro ev hev
    rcases htail ev hev with ⟨n, d, rfl, -⟩ | rfl | hres
    · simp
    · simp
    · rcases resetPhase_mem _ _ _ hres with rfl | rfl | rfl <;> simp
  constructor
  · rw [hdec]
    simp only [createsTagged, List.countP_append] at *
    omega
  · rw [hdec]
    simp only [deletesTagged, List.countP_append] at *
    omega

/-- C2 (amended): for the log-level debug task of a capture cycle, exactly
one delete call is issued whenever the ephemeral run reaches `Terminated`
within its deadline (whatever the wait and exec outcomes); but on the
deadline-exceeded path the container has been created, the error is only
logged, and no delete call at all is issued for it. -/
theorem ephemeral_delete_once_iff_terminated (cfg : SnapshotConfig) (env : SnapEnv)
    (hp : cfg.PodName ≠ "") (hc : cfg.ContainerName ≠ "")
    (hm : env.mkdirTempOk = true)
    (h1 : env.debugEph.getOk = true) (h2 : env.debugEph.updateOk = true) :
    (env.debugEph.reachesTerminated = true →
      createsTagged "debug" ((CaptureSnapshot cfg env).2) = 1 ∧
        deletesTagged "debug" ((CaptureSnapshot cfg env).2) = 1) ∧
    (env.debugEph.reachesTerminated = false →
      createsTagged "debug" ((CaptureSnapshot cfg env).2) = 1 ∧
        deletesTagged "debug" ((CaptureSnapshot cfg env).2) = 0) := by
  have hpe : (effConfig cfg).PodName ≠ "" := by
    unfold effConfig; split <;> simpa
  have hce : (effConfig cfg).ContainerName ≠ "" := by
    unfold effConfig; split <;> simpa
  rcases capture_debug_counts cfg env hm with ⟨hcc, hdd⟩
  constructor
  · intro h3
    rw [hcc, hdd, debugPodPhase_success (effConfig cfg) env hpe hce h1 h2 h3]
    constructor <;> simp [createsTagged, deletesTagged]
  · intro h3
    rw [hcc, hdd, debugPodPhase_timeout (effConfig cfg) env hpe hce h1 h2 h3]
    constructor <;> simp [createsTagged, deletesTagged]

/-! ### Concrete configurations and environments used as test vectors -/

def benignEph : EphRunEnv :=
  { getOk := true, updateOk := true, reachesTerminated := true }

def timeoutEph : EphRunEnv :=
  { getOk := true, updateOk := true, reachesTerminated := false }

/-- Environment in which every remote and filesystem operation succeeds
and every fetch returns the one-byte payload `[120]`. -/
def benignEnv : SnapEnv :=
  { mkdirTempOk := true
    logStream := fun _ => some [108]
    logWriteOk := fun _ => true
    debugEph := benignEph
    debugWaitOk := true
    debugExecOk := true
    tcpdumpTarget := some "consul-dataplane"
    tcpdumpEph := benignEph
    tcpdumpFetchOk := true
    pcapFiles := [("xdsnap.pcap", [1, 2])]
    fetchAttempt := fun _ _ => some [120]
    endpointWriteOk := fun _ => true
    archiveOk := true
    resetEph := benignEph
    resetWaitOk := true
    resetExecOk := true }

/-- Like `benignEnv`, except the log-level debug container never reaches
`Terminated` before the 10-second deadline. -/
def timeoutEnv : SnapEnv := { benignEnv with debugEph := timeoutEph }

def cfgW : SnapshotConfig :=
  { PodName := "web", ContainerName := "app", Endpoints := ["/stats"],
    OutputDir := "/out", ExtraLogs := ["consul-dataplane"], Duration := 60,
    EnableTrace := false, TcpdumpEnabled := false, SkipLogLevelReset := false }

/-- Configuration whose endpoint list contains the empty string. -/
def panicCfg : SnapshotConfig := { cfgW with Endpoints := [""] }

/-- C2 (counterexample): in a cycle whose debug ephemeral container is
accepted but never reaches `Terminated` before the deadline, the task was
created (one create event) and zero — not one — delete calls are issued:
the deadline-exceeded error propagates out of `CreatePrivilegedDebugPod`
and `CaptureSnapshot` only logs it, skipping the delete branch. -/
theorem ephemeral_timeout_no_delete_counterexample :
    createsTagged "debug" ((CaptureSnapshot cfgW timeoutEnv).2) = 1 ∧
      deletesTagged "debug" ((CaptureSnapshot cfgW timeoutEnv).2) = 0 := by
  constructor <;> decide

/-- C2 (witness): the amended theorem applied to the benign environment. -/
theorem ephemeral_delete_once_iff_terminated_witness :
    createsTagged "debug" ((CaptureSnapshot cfgW benignEnv).2) = 1 ∧
      deletesTagged "debug" ((CaptureSnapshot cfgW benignEnv).2) = 1 :=
  (ephemeral_delete_once_iff_terminated cfgW benignEnv (by decide) (by decide)
    rfl rfl rfl).1 rfl

/-- C6: a capture cycle returns an error exactly when the working-directory
creation fails or the archive stage fails; failures of endpoint fetches,
log collection, the debug task, the tcpdump task or the reset task are
logged and never make the cycle itself fail, and an archive failure is
never reported as a successful snapshot. -/
theorem cycle_error_only_archive_or_workdir (cfg : SnapshotConfig) (env : SnapEnv)
    (hnp : (CaptureSnapshot cfg env).1 ≠ SnapResult.panic) :
    (∃ m, (CaptureSnapshot cfg env).1 = SnapResult.error m) ↔
      (env.mkdirTempOk = false ∨ env.archiveOk = false) := by
  by_cases hm : env.mkdirTempOk = false
  · simp [CaptureSnapshot, hm]
  · by_cases hp : (endpointLoop env (effConfig cfg).Endpoints 0).2 = true
    · exact absurd (by simp [CaptureSnapshot, hm, hp]) hnp
    · by_cases ha : env.archiveOk = false
      · simp [CaptureSnapshot, hm, hp, ha]
      · simp [CaptureSnapshot, hm, hp, ha]

/-- C6 (witness): the theorem applied to the benign environment, where the
cycle succeeds and indeed no error is reported. -/
theorem cycle_error_only_archive_or_workdir_witness :
    (∃ m, (CaptureSnapshot cfgW benignEnv).1 = SnapResult.error m) ↔
      (benignEnv.mkdirTempOk = false ∨ benignEnv.archiveOk = false) :=
  cycle_error_only_archive_or_workdir cfgW benignEnv (by decide)

/-- C8: an endpoint JSON file write is recorded only for a non-empty
payload: an errored or empty fetch produces no `endpointWrite` event. -/
theorem endpoint_file_only_when_nonempty (cfg : SnapshotConfig) (env : SnapEnv)
    (name : String) (data : List Nat) :
    Ev.endpointWrite name data ∈ (CaptureSnapshot cfg env).2 → data ≠ [] := by
  intro h
  by_cases hm : env.mkdirTempOk = true
  · rcases capture_events_decomp cfg env hm with ⟨tail, hdec, htail⟩
    rw [hdec] at h
    simp only [List.mem_append] at h
    rcases h with h | h | h | h
    · rcases logPhase_mem _ _ _ h with ⟨c, d, hx⟩
      cases hx
    · rcases debugPodPhase_mem _ _ _ h with hx | hx <;> cases hx
    · rcases tcpdumpPhase_mem _ _ _ h with hx | hx | ⟨n, d, hx⟩ <;> cases hx
    · rcases htail _ h with ⟨n, d, hx, hd⟩ | hx | hres
      · cases hx
        exact hd
      · cases hx
      · rcases resetPhase_mem _ _ _ hres with hx | hx | hx <;> cases hx
  · have hm0 : env.mkdirTempOk = false := by
      revert hm; cases env.mkdirTempOk <;> simp
    simp [CaptureSnapshot, hm0] at h

/-- C8 (witness): the theorem applied at the benign environment, where the
stats endpoint file is indeed written with a non-empty payload. -/
theorem endpoint_file_only_when_nonempty_witness : ([120] : List Nat) ≠ [] :=
  endpoint_file_only_when_nonempty cfgW benignEnv "stats.json" [120] (by decide)

theorem endpointLoop_no_panic (env : SnapEnv) :
    ∀ (l : List String) (idx : Nat), (∀ e ∈ l, e ≠ "") →
      (endpointLoop env l idx).2 = false := by
  intro l
  induction l with
  | nil => intro idx _; rfl
  | cons e rest ih =>
    intro idx h
    have he : e ≠ "" := h e (by simp)
    have hr : ∀ x ∈ rest, x ≠ "" := fun x hx => h x (by simp [hx])
    unfold endpointLoop
    rcases (fetchEnvoyEndpoint e (env.fetchAttempt idx)).1 with m | data
    · exact ih (idx + 1) hr
    · by_cases hd : data.length = 0
      · simp only [hd, if_pos rfl]
        exact ih (idx + 1) hr
      · simp only [if_neg hd, if_neg he]
        exact ih (idx + 1) hr

/-- C10: the endpoint file name is derived from `endpoint[1:]`, which is a
runtime panic exactly when the endpoint string is empty (and the fetch
returned data): under the precondition that every configured endpoint is a
non-empty string beginning with a slash, no cycle panics; and with the
empty string configured as an endpoint the cycle panics. -/
theorem endpoint_slice_safety (cfg : SnapshotConfig) (env : SnapEnv) :
    ((∀ e ∈ cfg.Endpoints, e ≠ "" ∧ e.data.head? = some '/') →
      (CaptureSnapshot cfg env).1 ≠ SnapResult.panic) ∧
    (CaptureSnapshot panicCfg benignEnv).1 = SnapResult.panic := by
  constructor
  · intro h
    have hne : ∀ e ∈ (effConfig cfg).Endpoints, e ≠ "" := by
      unfold effConfig
      split
      · intro e he
        fin_cases he <;> decide
      · exact fun e he => (h e he).1
    have hnp := endpointLoop_no_panic env (effConfig cfg).Endpoints 0 hne
    by_cases hm : env.mkdirTempOk = false
    · simp [CaptureSnapshot, hm]
    · simp only [CaptureSnapshot, hm, hnp, Bool.false_eq_true, if_false]
      split
      · simp
      · split <;> simp
  · decide

/-- C10 (witness): the safety direction applied to a well-formed
configuration, together with the panic at the empty endpoint. -/
theorem endpoint_slice_safety_witness :
    (CaptureSnapshot cfgW benignEnv).1 ≠ SnapResult.panic ∧
      (CaptureSnapshot panicCfg benignEnv).1 = SnapResult.panic :=
  ⟨(endpoint_slice_safety cfgW benignEnv).1 (by decide),
    (endpoint_slice_safety cfgW benignEnv).2⟩

/-! ## Capture command outer loop (`cmd/capture.go`)

`NewCaptureCommand.Run` rejects `consul-dataplane` as the `--container`
value, builds the client config, lists pods when none is given, validates
the interval, and then drives the repeat/interval loop; each iteration
computes `finalReset := repeat == 0 || captures == repeat-1` and passes
`SkipLogLevelReset = !finalReset` to `CaptureSnapshot`.  The embedding
records process-fatal validations, the pod-listing remote call and the
executed cycles; wall-clock time is a counter advanced by the
environment (cycle bodies) and by the inter-cycle sleeps. -/

structure CaptureArgs where
  podName : String
  containerName : String
  endpoints : List String
  outputDir : String
  interval : Nat
  duration : Nat
  repeatCount : Nat
  enableTrace : Bool
  tcpdumpEnabled : Bool
deriving Repr

structure LoopEnv where
  /-- Pods carrying the `connect-inject` annotation, used when no pod is given. -/
  annotatedPods : List String
  /-- The per-iteration snapshot-directory `MkdirAll` succeeds. -/
  mkdirOk : Nat → Bool
  /-- `ListContainers` result for a pod (`none` is a remote error). -/
  containersOf : String → Option (List String)
  /-- Oracle for the cycle at a given index. -/
  cycleEnv : Nat → SnapEnv
  /-- Wall-clock seconds consumed by the body of the cycle at a given index. -/
  cycleElapsed : Nat → Nat

/-- Events of the capture command run: a `log.Fatalf` (which exits the
process), the pod-listing remote call, and an executed capture cycle
(which performs remote calls). -/
inductive CmdEv where
  | fatal (msg : String)
  | remoteListPods
  | cycle (idx : Nat)
deriving DecidableEq, Repr

def isFatal : CmdEv → Bool
  | CmdEv.fatal _ => true
  | _ => false

/-- Record of one executed cycle: its index, the `SkipLogLevelReset` flag
passed to `CaptureSnapshot`, and for each pod actually captured whether
the verbosity reset phase ran. -/
structure CycleRec where
  idx : Nat
  skipFlag : Bool
  pods : List (String × Bool)
deriving DecidableEq, Repr

/-- Sidecar detection of the per-pod loop (capture.go lines 125-135). -/
def findSidecar : List String → Option String
  | [] => none
  | c :: rest =>
    if c = "consul-dataplane" ∨ c = "envoy-sidecar" then some c
    else findSidecar rest

/-- Per-pod body of one cycle (capture.go lines 118-162): list the pod
containers (a failure skips the pod), find a known sidecar (none skips
the pod) and call `CaptureSnapshot`; the Bool records whether that call
ran its verbosity-reset phase. -/
def cyclePods (args : CaptureArgs) (env : LoopEnv) (idx : Nat) (skip : Bool)
    (pods : List String) : List (String × Bool) :=
  pods.filterMap (fun pod =>
    match env.containersOf pod with
    | none => none
    | some cs =>
      match findSidecar cs with
      | none => none
      | some sc =>
        let cfg : SnapshotConfig :=
          { PodName := pod, ContainerName := args.containerName,
            Endpoints := args.endpoints, OutputDir := args.outputDir,
            ExtraLogs := [sc], Duration := args.duration,
            EnableTrace := args.enableTrace, TcpdumpEnabled := args.tcpdumpEnabled,
            SkipLogLevelReset := skip }
        some (pod, decide (Ev.resetAttempt ∈ (CaptureSnapshot cfg (env.cycleEnv idx)).2)))

/-- The capture loop (capture.go lines 95-172).  State: `captures` (cycles
done), `started` (the duration-mode start time, set when the first
snapshot begins), `now` (wall clock).  The loop stops when the repeat
count is reached, or in duration mode when the elapsed time since
`started` reaches the duration; `fuel` bounds the recursion (the Go loop
has no such bound: with `repeat = 0` and `duration = 0` it never stops). -/
def loopIter (args : CaptureArgs) (env : LoopEnv) (pods : List String) :
    Nat → Option Nat → Nat → Nat → List CmdEv × List CycleRec
  | _, _, _, 0 => ([], [])
  | captures, started, now, fuel + 1 =>
    if args.repeatCount > 0 ∧ captures ≥ args.repeatCount then ([], [])
    else if args.repeatCount = 0 ∧ args.duration > 0 ∧
        (match started with
          | some t => decide (args.duration ≤ now - t)
          | none => false) = true then
      ([], [])
    else if env.mkdirOk captures = false then
      loopIter args env pods captures started now fuel
    else
      let finalReset : Bool :=
        args.repeatCount == 0 || captures == args.repeatCount - 1
      let recPods := cyclePods args env captures (!finalReset) pods
      let started2 :=
        if args.repeatCount = 0 ∧ 0 < args.duration ∧ started = none ∧ recPods ≠ []
        then some now else started
      let now2 := now + env.cycleElapsed captures
      let now3 :=
        if (0 < args.repeatCount ∧ captures + 1 < args.repeatCount) ∨ args.repeatCount = 0
        then now2 + args.interval else now2
      let r := loopIter args env pods (captures + 1) started2 now3 fuel
      (CmdEv.cycle captures :: r.1,
        { idx := captures, skipFlag := !finalReset, pods := recPods } :: r.2)

/-- Embedding of the `Run` closure of `NewCaptureCommand`: the
`consul-dataplane` rejection comes first; pod listing (a remote call)
happens when no pod is given and precedes the interval validation;
duration is never validated. -/
def NewCaptureRun (args : CaptureArgs) (env : LoopEnv) (fuel : Nat) :
    List CmdEv × List CycleRec :=
  if args.containerName = "consul-dataplane" then
    ([CmdEv.fatal "consul-dataplane cannot be used as the container value"], [])
  else
    let pre : List CmdEv := if args.podName = "" then [CmdEv.remoteListPods] else []
    let pods := if args.podName = "" then env.annotatedPods else [args.podName]
    if args.podName = "" ∧ pods = [] then (pre, [])
    else if args.interval < 5 then
      (pre ++ [CmdEv.fatal "Interval must be at least 5 seconds"], [])
    else
      let r := loopIter args env pods 0 none 0 fuel
      (pre ++ r.1, r.2)

/-! ### Verbosity reset and validation ordering theorems -/

theorem effConfig_skip (cfg : SnapshotConfig) :
    (effConfig cfg).SkipLogLevelReset = cfg.SkipLogLevelReset := by
  unfold effConfig; split <;> rfl

theorem resetAttempt_not_in_phases (cfg : SnapshotConfig) (env : SnapEnv)
    (l : List String) (idx : Nat) :
    Ev.resetAttempt ∉ logPhase cfg env ∧ Ev.resetAttempt ∉ debugPodPhase cfg env ∧
      Ev.resetAttempt ∉ tcpdumpPhase cfg env ∧
      Ev.resetAttempt ∉ (endpointLoop env l idx).1 := by
  refine ⟨?_, ?_, ?_, ?_⟩ <;> intro h
  · rcases logPhase_mem _ _ _ h with ⟨c, d, hx⟩; cases hx
  · rcases debugPodPhase_mem _ _ _ h with hx | hx <;> cases hx
  · rcases tcpdumpPhase_mem _ _ _ h with hx | hx | ⟨n, d, hx⟩ <;> cases hx
  · rcases endpointLoop_mem _ _ _ _ h with ⟨n, d, hx, -⟩; cases hx

theorem resetAttempt_mem_resetPhase (cfg : SnapshotConfig) (env : SnapEnv) :
    Ev.resetAttempt ∈ resetPhase cfg env ↔ cfg.SkipLogLevelReset = false := by
  unfold resetPhase
  by_cases hs : cfg.SkipLogLevelReset = true <;> simp [hs]

theorem resetAttempt_mem_iff (cfg : SnapshotConfig) (env : SnapEnv) :
    Ev.resetAttempt ∈ (CaptureSnapshot cfg env).2 ↔
      (cfg.SkipLogLevelReset = false ∧ env.mkdirTempOk = true ∧
        (endpointLoop env (effConfig cfg).Endpoints 0).2 = false ∧
        env.archiveOk = true) := by
  rcases resetAttempt_not_in_phases (effConfig cfg) env (effConfig cfg).Endpoints 0 with
    ⟨hL, hD, hT, hE⟩
  by_cases hm : env.mkdirTempOk = false
  · simp [CaptureSnapshot, hm]
  · have hm1 : env.mkdirTempOk = true := by revert hm; cases env.mkdirTempOk <;> simp
    by_cases hp : (endpointLoop env (effConfig cfg).Endpoints 0).2 = true
    · simp only [CaptureSnapshot, hm, Bool.false_eq_true, if_false, hp, if_pos rfl]
      simp [hL, hD, hT, hE, hp]
    · have hp0 : (endpointLoop env (effConfig cfg).Endpoints 0).2 = false := by
        revert hp; cases (endpointLoop env (effConfig cfg).Endpoints 0).2 <;> simp
      by_cases ha : env.archiveOk = false
      · simp only [CaptureSnapshot, hm, Bool.false_eq_true, if_false, hp0, ha]
        simp [hL, hD, hT, hE, ha]
      · have ha1 : env.archiveOk = true := by revert ha; cases env.archiveOk <;> simp
        simp only [CaptureSnapshot, hm, Bool.false_eq_true, if_false, hp0, ha1]
        simp [hL, hD, hT, hE, hm1, hp0, ha1, resetAttempt_mem_resetPhase,
          effConfig_skip]

theorem loopIter_skipFlag (args : CaptureArgs) (env : LoopEnv) (pods : List String) :
    ∀ (fuel captures : Nat) (started : Option Nat) (now : Nat) (r : CycleRec),
      r ∈ (loopIter args env pods captures started now fuel).2 →
      r.skipFlag = !(args.repeatCount == 0 || r.idx == args.repeatCount - 1) := by
  intro fuel
  induction fuel with
  | zero => intro captures started now r h; simp [loopIter] at h
  | succ fuel ih =>
    intro captures started now r h
    unfold loopIter at h
    split at h
    · simp at h
    · split at h
      · simp at h
      · split at h
        · exact ih captures started now r h
        · simp only [List.mem_cons] at h
          rcases h with rfl | h
          · rfl
          · exact ih _ _ _ r h

/-! ### Concrete loop runs -/

def c3RepArgs : CaptureArgs :=
  { podName := "web", containerName := "app", endpoints := ["/stats"],
    outputDir := "/out", interval := 5, duration := 60, repeatCount := 3,
    enableTrace := false, tcpdumpEnabled := false }

def c3DurArgs : CaptureArgs := { c3RepArgs with repeatCount := 0, duration := 10 }

def c3LoopEnv : LoopEnv :=
  { annotatedPods := [], mkdirOk := fun _ => true,
    containersOf := fun _ => some ["app", "consul-dataplane"],
    cycleEnv := fun _ => benignEnv, cycleElapsed := fun _ => 1 }

/-- C3 (amended): the verbosity reset phase of a cycle runs exactly when
`SkipLogLevelReset` is false and the cycle completed its archive stage
(temp dir created, no endpoint panic, archive succeeded); the outer loop
suppresses the reset exactly on cycles with
`finalReset = (repeat == 0 || captures == repeat-1)` false — so in
fixed-repeat mode only the last cycle resets, while in duration-bounded
mode every cycle is designated final and resets; with `repeat = 3` the
three cycles skip, skip, reset, i.e. exactly one reset, on the third
cycle. -/
theorem verbosity_reset_final_designation :
    (∀ (cfg : SnapshotConfig) (env : SnapEnv),
      Ev.resetAttempt ∈ (CaptureSnapshot cfg env).2 ↔
        (cfg.SkipLogLevelReset = false ∧ env.mkdirTempOk = true ∧
          (endpointLoop env (effConfig cfg).Endpoints 0).2 = false ∧
          env.archiveOk = true)) ∧
    (∀ (args : CaptureArgs) (env : LoopEnv) (pods : List String)
        (fuel captures : Nat) (started : Option Nat) (now : Nat) (r : CycleRec),
      r ∈ (loopIter args env pods captures started now fuel).2 →
      r.skipFlag = !(args.repeatCount == 0 || r.idx == args.repeatCount - 1)) ∧
    (NewCaptureRun c3RepArgs c3LoopEnv 6).2.map (fun r => (r.idx, r.skipFlag, r.pods)) =
      [(0, true, [("web", false)]), (1, true, [("web", false)]),
        (2, false, [("web", true)])] :=
  ⟨resetAttempt_mem_iff, loopIter_skipFlag, by decide⟩

/-- C3 (counterexample): a duration-bounded run (`repeat = 0`,
`duration = 10s`, one pod, every remote operation succeeding) executes
two cycles and performs the verbosity reset on both of them — including
cycle 0, which is not the designated final cycle of the run — because the
code treats every duration-mode cycle as final. -/
theorem duration_mode_resets_nonfinal_counterexample :
    (NewCaptureRun c3DurArgs c3LoopEnv 5).2.map (fun r => (r.idx, r.skipFlag, r.pods)) =
      [(0, false, [("web", true)]), (1, false, [("web", true)])] ∧
    ∃ r ∈ (NewCaptureRun c3DurArgs c3LoopEnv 5).2,
      (∃ p ∈ r.pods, p.2 = true) ∧
        r.idx + 1 ≠ (NewCaptureRun c3DurArgs c3LoopEnv 5).2.length := by
  refine ⟨by decide, by decide⟩

/-- C3 (witness): the loop-flag part of the amended theorem applied to the
first cycle of the repeat-3 run, and the reset-condition part applied to
the benign cycle. -/
theorem verbosity_reset_final_designation_witness :
    (⟨0, true, [("web", false)]⟩ : CycleRec).skipFlag =
        !(c3RepArgs.repeatCount == 0 ||
          (⟨0, true, [("web", false)]⟩ : CycleRec).idx == c3RepArgs.repeatCount - 1) ∧
      (Ev.resetAttempt ∈ (CaptureSnapshot cfgW benignEnv).2 ↔
        (cfgW.SkipLogLevelReset = false ∧ benignEnv.mkdirTempOk = true ∧
          (endpointLoop benignEnv (effConfig cfgW).Endpoints 0).2 = false ∧
          benignEnv.archiveOk = true)) :=
  ⟨verbosity_reset_final_designation.2.1 c3RepArgs c3LoopEnv ["web"] 6 0 none 0
      ⟨0, true, [("web", false)]⟩ (by decide),
    verbosity_reset_final_designation.1 cfgW benignEnv⟩

def c4IntArgs : CaptureArgs :=
  { podName := "", containerName := "app", endpoints := ["/stats"],
    outputDir := "/out", interval := 3, duration := 60, repeatCount := 0,
    enableTrace := false, tcpdumpEnabled := false }

def c4DurArgs : CaptureArgs := { c4IntArgs with interval := 5, duration := 0 }

def c4DpArgs : CaptureArgs :=
  { c4IntArgs with podName := "w", containerName := "consul-dataplane" }

def c4PodIntArgs : CaptureArgs := { c4IntArgs with podName := "w" }

def c4LoopEnv : LoopEnv := { c3LoopEnv with annotatedPods := ["web"] }

/-- C4 (amended): the `consul-dataplane` container rejection is fatal and
precedes every remote call; the interval validation is fatal but, when no
pod name is given, runs only after the pod-listing remote call; duration
is not validated at all. -/
theorem config_validation_ordering (args : CaptureArgs) (env : LoopEnv) (fuel : Nat) :
    (args.containerName = "consul-dataplane" →
      NewCaptureRun args env fuel =
        ([CmdEv.fatal "consul-dataplane cannot be used as the container value"], [])) ∧
    (args.containerName ≠ "consul-dataplane" → args.interval < 5 → args.podName ≠ "" →
      NewCaptureRun args env fuel =
        ([CmdEv.fatal "Interval must be at least 5 seconds"], [])) ∧
    (args.containerName ≠ "consul-dataplane" → args.interval < 5 → args.podName = "" →
      env.annotatedPods ≠ [] →
      NewCaptureRun args env fuel =
        ([CmdEv.remoteListPods, CmdEv.fatal "Interval must be at least 5 seconds"], [])) := by
  refine ⟨?_, ?_, ?_⟩
  · intro h
    simp [NewCaptureRun, h]
  · intro hdp hi hp
    simp [NewCaptureRun, hdp, hi, hp]
  · intro hdp hi hp hpods
    simp [NewCaptureRun, hdp, hi, hp, hpods]

/-- C4 (counterexample): with no pod specified and `interval = 3`, the run
performs the pod-listing remote call and only then fails the interval
validation — the validation is not before every remote call; and with
`duration = 0` in duration-bounded mode no fatal validation occurs at all
and capture cycles run. -/
theorem validation_not_before_remote_counterexample :
    NewCaptureRun c4IntArgs c4LoopEnv 5 =
      ([CmdEv.remoteListPods, CmdEv.fatal "Interval must be at least 5 seconds"], []) ∧
    (NewCaptureRun c4DurArgs c4LoopEnv 3).1.countP isFatal = 0 ∧
    CmdEv.cycle 0 ∈ (NewCaptureRun c4DurArgs c4LoopEnv 3).1 := by
  refine ⟨by decide, by decide, by decide⟩

/-- C4 (witness): the amended theorem applied to a rejected container name
and to an interval-invalid run with a pod given (where the fatal is indeed
the only event). -/
theorem config_validation_ordering_witness :
    NewCaptureRun c4DpArgs c4LoopEnv 5 =
        ([CmdEv.fatal "consul-dataplane cannot be used as the container value"], []) ∧
      NewCaptureRun c4PodIntArgs c4LoopEnv 5 =
        ([CmdEv.fatal "Interval must be at least 5 seconds"], []) :=
  ⟨(config_validation_ordering c4DpArgs c4LoopEnv 5).1 rfl,
    (config_validation_ordering c4PodIntArgs c4LoopEnv 5).2.1 (by decide) (by decide)
      (by decide)⟩

/-! ## Fan-out/fan-in join (snap.go lines 45-65 and 168-175)

`CaptureSnapshot` spawns one goroutine per non-empty container name in
`ContainerName :: ExtraLogs`; each goroutine streams and writes its log
file and only then sends one token on the `logResults` channel.  For an
empty name the main goroutine sends the token itself during the spawn
loop.  Before `createTarGz` the main goroutine receives exactly
`cap(logResults)` = (number of workers `n`) + (number of empty names `e`)
tokens.  The interleaving semantics is the transition system below:
`pending` workers have not finished their collection work, `done` workers
have written their file but not yet sent, `sent` counts worker tokens on
the channel, `received` counts tokens taken by main (the `e` main-sent
tokens are available from the start), and `archived` records that
`createTarGz` has begun. -/

structure JState where
  pending : Nat
  done : Nat
  sent : Nat
  received : Nat
  archived : Bool
deriving DecidableEq, Repr

def JInit (n : Nat) : JState :=
  { pending := n, done := 0, sent := 0, received := 0, archived := false }

/-- One scheduler step: a worker finishes its stream-and-write, a worker
sends its token, main receives an available token, or main starts
archiving once all `n + e` tokens are received. -/
inductive JStep (n e : Nat) : JState → JState → Prop where
  | work {s : JState} (h : 0 < s.pending) :
      JStep n e s { s with pending := s.pending - 1, done := s.done + 1 }
  | send {s : JState} (h : 0 < s.done) :
      JStep n e s { s with done := s.done - 1, sent := s.sent + 1 }
  | recv {s : JState} (h : s.received < e + s.sent) (ha : s.archived = false) :
      JStep n e s { s with received := s.received + 1 }
  | archive {s : JState} (h : s.received = n + e) (ha : s.archived = false) :
      JStep n e s { s with archived := true }

inductive JReach (n e : Nat) : JState → Prop where
  | init : JReach n e (JInit n)
  | step {s s2 : JState} : JReach n e s → JStep n e s s2 → JReach n e s2

/-- Inductive invariant of the join: worker conservation, tokens received
never exceed tokens available, and archiving implies a full join. -/
def JInv (n e : Nat) (s : JState) : Prop :=
  s.pending + s.done + s.sent = n ∧ s.received ≤ e + s.sent ∧
    (s.archived = true → s.received = n + e)

theorem JInv_init (n e : Nat) : JInv n e (JInit n) := by
  simp [JInv, JInit]

theorem JInv_step (n e : Nat) {s s2 : JState} (hinv : JInv n e s)
    (hs : JStep n e s s2) : JInv n e s2 := by
  rcases hinv with ⟨h1, h2, h3⟩
  cases hs with
  | work h => exact ⟨by simp; omega, by simp; omega, fun hx => h3 hx⟩
  | send h => exact ⟨by simp; omega, by simp; omega, fun hx => h3 hx⟩
  | recv h ha =>
    refine ⟨by simp; omega, by simp; omega, ?_⟩
    intro hx
    simp only [ha] at hx
    cases hx
  | archive h ha => exact ⟨by simp; omega, by simp; omega, fun _ => h⟩

theorem JInv_reach (n e : Nat) {s : JState} (h : JReach n e s) : JInv n e s := by
  induction h with
  | init => exact JInv_init n e
  | step _ hs ih => exact JInv_step n e ih hs

/-- C5: in every schedule of the fan-out workers, once archiving has
begun every one of the `n` log workers has finished its collection work
and sent its token (`pending = 0`, `done = 0`, `sent = n`): the snapshot
bundle is never created while any collection worker of the cycle is still
outstanding. -/
theorem archive_only_after_all_workers_join (n e : Nat) (s : JState)
    (h : JReach n e s) (ha : s.archived = true) :
    s.pending = 0 ∧ s.done = 0 ∧ s.sent = n := by
  rcases JInv_reach n e h with ⟨h1, h2, h3⟩
  have hr := h3 ha
  omega

/-- C5 (witness): with one worker and one main-sent token, the schedule
work, send, receive, receive, archive reaches an archived state, and at
that state the worker has joined. -/
theorem archive_only_after_all_workers_join_witness :
    ({ pending := 0, done := 0, sent := 1, received := 2, archived := true } : JState).pending = 0 ∧
      ({ pending := 0, done := 0, sent := 1, received := 2, archived := true } : JState).done = 0 ∧
      ({ pending := 0, done := 0, sent := 1, received := 2, archived := true } : JState).sent = 1 :=
  archive_only_after_all_workers_join 1 1 _
    (JReach.step
      (JReach.step
        (JReach.step
          (JReach.step
            (JReach.step JReach.init (JStep.work (by decide)))
            (JStep.send (by decide)))
          (JStep.recv (by decide) rfl))
        (JStep.recv (by decide) rfl))
      (JStep.archive (by decide) rfl))
    rfl

/-! ## Archive builder (`createTarGz`, snap.go lines 247-289)

`createTarGz` walks `sourceDir` with `filepath.Walk` (deterministic,
depth-first, each directory entry visited before its children), skips
entries with `fi.IsDir()`, and writes one tar entry per regular file
whose name is the path relative to `sourceDir`, followed by the file
bytes.  The source directory is a finite tree of named entries; the walk
is the `walkEntry`/`walkList` pair, emitting `(path, none)` for a
directory and `(path, some bytes)` for a regular file.  Extraction of the
archive recreates one file per entry at its recorded relative path, so
reading the extracted tree at `p` is looking up the first entry whose
path is `p`. -/

mutual
inductive FsEntry where
  | file (content : List Nat)
  | dir (children : FsList)
deriving DecidableEq, Repr
inductive FsList where
  | nil
  | cons (name : String) (entry : FsEntry) (rest : FsList)
deriving DecidableEq, Repr
end

def FsList.hasName : FsList → String → Bool
  | FsList.nil, _ => false
  | FsList.cons n _ rest, x => (n == x) || rest.hasName x

mutual
/-- Well-formed directory tree: sibling names are distinct. -/
def FsEntry.wfB : FsEntry → Bool
  | FsEntry.file _ => true
  | FsEntry.dir l => l.wfB
def FsList.wfB : FsList → Bool
  | FsList.nil => true
  | FsList.cons n e rest => (!rest.hasName n) && e.wfB && rest.wfB
end

mutual
/-- Embedding of the `filepath.Walk` traversal: each visited path with
`none` for a directory and `some bytes` for a regular file. -/
def walkEntry (base : List String) : FsEntry → List (List String × Option (List Nat))
  | FsEntry.file c => [(base, some c)]
  | FsEntry.dir l => (base, none) :: walkList base l
def walkList (base : List String) : FsList → List (List String × Option (List Nat))
  | FsList.nil => []
  | FsList.cons n e rest => walkEntry (base ++ [n]) e ++ walkList base rest
end

/-- Tar entries produced from the walk rooted at `base`: directory
entries are omitted, each regular file contributes one `(relative path,
bytes)` entry. -/
def tarFrom (base : List String) (fs : FsEntry) : List (List String × List Nat) :=
  (walkEntry base fs).filterMap (fun pc =>
    match pc.2 with
    | some c => some (pc.1, c)
    | none => none)

def tarFromList (base : List String) (l : FsList) : List (List String × List Nat) :=
  (walkList base l).filterMap (fun pc =>
    match pc.2 with
    | some c => some (pc.1, c)
    | none => none)

/-- Embedding of `createTarGz`: the archive built from the source tree. -/
def createTarGz (fs : FsEntry) : List (List String × List Nat) := tarFrom [] fs

/-- Reading the extracted archive at relative path `p`. -/
def extractFile (entries : List (List String × List Nat)) (p : List String) :
    Option (List Nat) :=
  (entries.find? (fun en => en.1 == p)).map (fun en => en.2)

def FsList.findEntry : FsList → String → Option FsEntry
  | FsList.nil, _ => none
  | FsList.cons n e rest, x => if n = x then some e else rest.findEntry x

/-- Reading the source tree at relative path `p`. -/
def lookupFile : FsEntry → List String → Option (List Nat)
  | FsEntry.file c, [] => some c
  | FsEntry.file _, _ :: _ => none
  | FsEntry.dir _, [] => none
  | FsEntry.dir l, x :: p =>
    match l.findEntry x with
    | some e => lookupFile e p
    | none => none
termination_by structural _ p => p

mutual
/-- Number of regular files in the tree. -/
def countFiles : FsEntry → Nat
  | FsEntry.file _ => 1
  | FsEntry.dir l => countFilesList l
def countFilesList : FsList → Nat
  | FsList.nil => 0
  | FsList.cons _ e rest => countFiles e + countFilesList rest
end

theorem tarFrom_dir (base : List String) (l : FsList) :
    tarFrom base (FsEntry.dir l) = tarFromList base l := by
  simp [tarFrom, tarFromList, walkEntry]

theorem tarFromList_cons (base : List String) (n : String) (e : FsEntry) (rest : FsList) :
    tarFromList base (FsList.cons n e rest) =
      tarFrom (base ++ [n]) e ++ tarFromList base rest := by
  simp [tarFrom, tarFromList, walkList, List.filterMap_append]

mutual
theorem tarFrom_path_shape : ∀ (fs : FsEntry) (base q : List String) (c : List Nat),
    (q, c) ∈ tarFrom base fs → ∃ r, q = base ++ r
  | FsEntry.file c0, base, q, c, h => by
    simp [tarFrom, walkEntry] at h
    exact ⟨[], by simp [h.1]⟩
  | FsEntry.dir l, base, q, c, h => by
    rw [tarFrom_dir] at h
    rcases tarFromList_path_shape l base q c h with ⟨x, r, hq, -⟩
    exact ⟨x :: r, hq⟩
theorem tarFromList_path_shape : ∀ (l : FsList) (base q : List String) (c : List Nat),
    (q, c) ∈ tarFromList base l → ∃ x r, q = base ++ x :: r ∧ l.hasName x = true
  | FsList.nil, base, q, c, h => by
    simp [tarFromList, walkList] at h
  | FsList.cons n e rest, base, q, c, h => by
    rw [tarFromList_cons] at h
    rcases List.mem_append.mp h with h | h
    · rcases tarFrom_path_shape e (base ++ [n]) q c h with ⟨r, hq⟩
      exact ⟨n, r, by simpa using hq, by simp [FsList.hasName]⟩
    · rcases tarFromList_path_shape rest base q c h with ⟨x, r, hq, hh⟩
      exact ⟨x, r, hq, by simp [FsList.hasName, hh]⟩
end


mutual
theorem tarFrom_lookup : ∀ (fs : FsEntry), fs.wfB = true → ∀ (base p : List String),
    extractFile (tarFrom base fs) (base ++ p) = lookupFile fs p
  | FsEntry.file c0, _, base, p => by
    cases p with
    | nil => simp [tarFrom, walkEntry, extractFile, lookupFile]
    | cons x p2 => simp [tarFrom, walkEntry, extractFile, lookupFile]
  | FsEntry.dir l, hwf, base, p => by
    rw [tarFrom_dir]
    cases p with
    | nil =>
      have hnone : (tarFromList base l).find?
          (fun en => en.1 == base) = none := by
        rw [List.find?_eq_none]
        rintro ⟨q, c⟩ hen
        rcases tarFromList_path_shape l base q c hen with ⟨x, r, hq, -⟩
        simp only [hq, beq_iff_eq]
        intro hc
        have hlen := congrArg List.length hc
        simp at hlen
      simp [extractFile, hnone, lookupFile]
    | cons x p2 =>
      have hl : l.wfB = true := by simpa [FsEntry.wfB] using hwf
      rw [tarFromList_lookup l hl base x p2]
      simp [lookupFile]
theorem tarFromList_lookup : ∀ (l : FsList), l.wfB = true →
    ∀ (base : List String) (x : String) (p : List String),
      extractFile (tarFromList base l) (base ++ x :: p) =
        (match l.findEntry x with
          | some e => lookupFile e p
          | none => none)
  | FsList.nil, _, base, x, p => by
    simp [tarFromList, walkList, extractFile, FsList.findEntry]
  | FsList.cons n e rest, hwf, base, x, p => by
    have h3 : ((!rest.hasName n) && e.wfB && rest.wfB) = true := by
      simpa [FsList.wfB] using hwf
    simp only [Bool.and_eq_true, Bool.not_eq_true'] at h3
    obtain ⟨⟨hname, he⟩, hrest⟩ := h3
    rw [tarFromList_cons]
    by_cases hx : n = x
    · subst hx
      have hnone : (tarFromList base rest).find?
          (fun en => en.1 == base ++ n :: p) = none := by
        rw [List.find?_eq_none]
        rintro ⟨q, c⟩ hen
        rcases tarFromList_path_shape rest base q c hen with ⟨x2, r, hq, hh⟩
        have hx2 : x2 ≠ n := by
          intro hx2e
          rw [hx2e, hname] at hh
          cases hh
        simp [hq, hx2]
      have hA := tarFrom_lookup e he (base ++ [n]) p
      rw [show base ++ n :: p = (base ++ [n]) ++ p by simp] at hnone ⊢
      simp only [extractFile, List.find?_append] at hA ⊢
      rw [hnone, Option.or_none, hA]
      simp [FsList.findEntry]
    · have hnoneA : (tarFrom (base ++ [n]) e).find?
          (fun en => en.1 == base ++ x :: p) = none := by
        rw [List.find?_eq_none]
        rintro ⟨q, c⟩ hen
        rcases tarFrom_path_shape e (base ++ [n]) q c hen with ⟨r, hq⟩
        have hq2 : q = base ++ n :: r := by simpa using hq
        simp only [hq2, beq_iff_eq]
        intro hcontra
        have h2 := List.append_cancel_left hcontra
        injection h2 with hn _
        exact hx hn
      have hB := tarFromList_lookup rest hrest base x p
      simp only [extractFile, List.find?_append] at hB ⊢
      rw [hnoneA, Option.none_or, hB]
      simp [FsList.findEntry, hx]
end

mutual
theorem tarFrom_length : ∀ (fs : FsEntry) (base : List String),
    (tarFrom base fs).length = countFiles fs
  | FsEntry.file c0, base => by simp [tarFrom, walkEntry, countFiles]
  | FsEntry.dir l, base => by
    rw [tarFrom_dir]
    rw [tarFromList_length l base]
    rfl
theorem tarFromList_length : ∀ (l : FsList) (base : List String),
    (tarFromList base l).length = countFilesList l
  | FsList.nil, base => by simp [tarFromList, walkList, countFilesList]
  | FsList.cons n e rest, base => by
    rw [tarFromList_cons]
    simp only [List.length_append, tarFrom_length e (base ++ [n]),
      tarFromList_length rest base]
    rfl
end

/-- C7: building the archive over a well-formed source tree writes
exactly one entry per regular file (directory entries omitted, relative
paths preserved), and extracting it yields byte-identical contents at
identical relative paths: reading the extracted archive at any relative
path agrees with reading the source tree. -/
theorem createTarGz_roundtrip (fs : FsEntry) (h : fs.wfB = true) :
    (∀ p, extractFile (createTarGz fs) p = lookupFile fs p) ∧
      (createTarGz fs).length = countFiles fs := by
  constructor
  · intro p
    have := tarFrom_lookup fs h [] p
    simpa [createTarGz] using this
  · exact tarFrom_length fs []

/-- The source directory of the round-trip example in the specification:
`stats.json` holding the bytes of `{}` and `app-logs.txt` holding the
bytes of `hello`. -/
def exampleFs : FsEntry :=
  FsEntry.dir
    (FsList.cons "app-logs.txt"
      (FsEntry.file [104, 101, 108, 108, 111])
      (FsList.cons "stats.json" (FsEntry.file [123, 125]) FsList.nil))

/-- C7 (witness): the round-trip theorem applied to the example source
tree, whose two files are reproduced byte-identically at their relative
paths and whose archive has exactly two entries. -/
theorem createTarGz_roundtrip_witness :
    extractFile (createTarGz exampleFs) ["stats.json"] =
        lookupFile exampleFs ["stats.json"] ∧
      extractFile (createTarGz exampleFs) ["app-logs.txt"] =
        lookupFile exampleFs ["app-logs.txt"] ∧
      lookupFile exampleFs ["stats.json"] = some [123, 125] ∧
      lookupFile exampleFs ["app-logs.txt"] = some [104, 101, 108, 108, 111] ∧
      (createTarGz exampleFs).length = countFiles exampleFs :=
  ⟨(createTarGz_roundtrip exampleFs (by decide)).1 ["stats.json"],
    (createTarGz_roundtrip exampleFs (by decide)).1 ["app-logs.txt"],
    by decide, by decide,
    (createTarGz_roundtrip exampleFs (by decide)).2⟩

/-! ## Deadline structure of the remote operations (C9)

Each remote primitive is given its completion-time semantics as a
function of an adversarial remote delay `d` (the seconds until the remote
side answers):

* `ExecuteCommand` (kubernetes_api_service.go lines 61-95) builds an SPDY
  executor and calls `exec.Stream` with no context, timer or deadline of
  any kind, so it completes exactly when the remote side does;
* `streamLogsWithTimeout` (snap.go lines 210-225) selects on a context
  with timeout `duration + 10s`, returning the collected bytes when the
  timeout fires even if the stream hangs;
* `WaitForPodRunning` (lines 183-206) selects on `time.After(timeout)`
  (30s at its call sites);
* the port-forward readiness wait of `PortForwardGET` (lines 240-257)
  selects on `time.After(12s)`. -/

def executeCommandTime (d : Nat) : Nat := d

def streamLogsWithTimeoutTime (bound d : Nat) : Nat := min d bound

def waitForPodRunningTime (timeout d : Nat) : Nat := min d timeout

def portForwardReadyTime (d : Nat) : Nat := min d 12

/-- An operation carries an effective time bound when its completion time
is bounded over all remote delays. -/
def Bounded (f : Nat → Nat) : Prop := ∃ B, ∀ d, f d ≤ B

/-- The remote operations a capture cycle performs, by completion-time
semantics: the exec-based calls (endpoint fetch `wget`, debug `curl`,
tcpdump `tar` fetch), the per-container log streams, and the
`WaitForPodRunning` calls of the debug and reset phases. -/
def cycleRemoteOps (duration : Nat) : List (Nat → Nat) :=
  [executeCommandTime,
    streamLogsWithTimeoutTime (duration + 10),
    waitForPodRunningTime 30]

/-- C9 (counterexample): the capture cycle performs `ExecuteCommand`
operations (every endpoint fetch attempt among them), and
`ExecuteCommand` carries no explicit time bound: for every candidate
bound there is a remote delay exceeding it, so the operation can block
indefinitely. -/
theorem exec_unbounded_counterexample :
    executeCommandTime ∈ cycleRemoteOps 60 ∧ ¬Bounded executeCommandTime := by
  constructor
  · simp [cycleRemoteOps]
  · rintro ⟨B, hB⟩
    have := hB (B + 1)
    simp [executeCommandTime] at this

/-- C9 (amended): the log streams are bounded by `duration + 10s`, the
pod-running waits by `30s` and the tunnel readiness wait by `12s`, but
the exec path (`ExecuteCommand`, used by every endpoint fetch attempt,
the debug curl and the tcpdump tar fetch) carries no explicit time bound;
every remote operation of the cycle other than the exec-based ones is
bounded. -/
theorem remote_ops_bounds (duration : Nat) :
    Bounded (streamLogsWithTimeoutTime (duration + 10)) ∧
      Bounded (waitForPodRunningTime 30) ∧
      Bounded portForwardReadyTime ∧
      ¬Bounded executeCommandTime ∧
      (∀ f ∈ cycleRemoteOps duration, f = executeCommandTime ∨ Bounded f) := by
  refine ⟨⟨duration + 10, fun d => Nat.min_le_right _ _⟩,
    ⟨30, fun d => Nat.min_le_right _ _⟩,
    ⟨12, fun d => Nat.min_le_right _ _⟩, ?_, ?_⟩
  · rintro ⟨B, hB⟩
    have := hB (B + 1)
    simp [executeCommandTime] at this
  · intro f hf
    simp only [cycleRemoteOps, List.mem_cons, List.not_mem_nil, or_false] at hf
    rcases hf with rfl | rfl | rfl
    · exact Or.inl rfl
    · exact Or.inr ⟨duration + 10, fun d => Nat.min_le_right _ _⟩
    · exact Or.inr ⟨30, fun d => Nat.min_le_right _ _⟩

/-- C9 (witness): the amended theorem applied at a 60-second cycle
duration, including its exhaustiveness conjunct at the exec operation. -/
theorem remote_ops_bounds_witness :
    Bounded (streamLogsWithTimeoutTime 70) ∧
      (executeCommandTime = executeCommandTime ∨ Bounded executeCommandTime) :=
  ⟨(remote_ops_bounds 60).1,
    (remote_ops_bounds 60).2.2.2.2 executeCommandTime (by simp [cycleRemoteOps])⟩
